import Mathlib

/-!
Verification development for the `relais.hpa.tb` TB strain-typing module.

The Python sources (`defs.py`, `typing.py`) are shallowly embedded below:

* Python dictionaries become association lists (`dictget`/`dictset`), with
  the update-or-append semantics of `d[k] = v`.
* Python exceptions become the `PyErr` error type threaded through `Except`.
* Machine strings become `String`/`List Char`; repeat counts become
  `Option Int` (`none` models the Python `None` "ambiguous" value).
-/

deriving instance DecidableEq for Except

/-- Python exception outcomes that the embedded code can raise.
`keyError` models a failed dict lookup, `assertionError` a failed `assert`,
and `nameError` the evaluation of an undefined name. -/
inductive PyErr where
  | keyError
  | assertionError
  | nameError
deriving DecidableEq, Repr

/-- Lookup in a Python dict modelled as an association list: `d[k]`. -/
def dictget {α : Type} : List (String × α) → String → Option α
  | [], _ => none
  | p :: d, k => if p.1 = k then some p.2 else dictget d k

/-- Python dict assignment `d[k] = v`: overwrite the entry if the key is
present, otherwise append a new entry. -/
def dictset {α : Type} : List (String × α) → String → α → List (String × α)
  | [], k, v => [(k, v)]
  | p :: d, k, v => if p.1 = k then (k, v) :: d else p :: dictset d k v

/-- Characters of the Python `str` whitespace class (matched both by
`str.strip()` and by the `\s` class of `NORM_RE`). -/
def pySpace (c : Char) : Bool :=
  c = ' ' || c = '\t' || c = '\n' || c = '\r' || c = '\x0b' || c = '\x0c'

/-- Python `s.strip()` on the character list of a string. -/
def stripChars (l : List Char) : List Char :=
  ((l.dropWhile pySpace).reverse.dropWhile pySpace).reverse

/-- Python `''.join(parts)`. -/
def strJoin (parts : List String) : String :=
  String.mk (parts.map String.data).flatten

/-! ## defs.py -/

/-- The `LOCI` catalog: each row is a canonical locus name followed by its
synonyms (`defs.py`). -/
def LOCI : List (List String) :=
  [ ["154",   "MIRU-02", "MIRU-2"],
    ["424",   "VNTR-424",    "Mtub04", "Mtub4"],
    ["577",   "ETR-C"],
    ["580",   "MIRU-04", "MIRU-4",  "ETR-D"],
    ["802",   "MIRU-40"],
    ["960",   "MIRU-10"],
    ["1644",  "MIRU-16"],
    ["1955",  "VNTR-1955",   "Mtub21"],
    ["2059",  "MIRU-20"],
    ["2163b", "VNTR-2163b",  "QUB11b"],
    ["2165",  "ETR-A"],
    ["2347",  "VNTR-2347",   "Mtub29"],
    ["2401",  "VNTR-2401",   "Mtub30"],
    ["2461",  "ETR-B"],
    ["2531",  "MIRU-23"],
    ["2687",  "MIRU-24"],
    ["2996",  "MIRU-26"],
    ["3007",  "MIRU-27",     "QUB5"],
    ["3171",  "VNTR-3171",   "Mtub34"],
    ["3192",  "MIRU-31",     "ETR-E"],
    ["3690",  "VNTR-3690",   "Mtub39"],
    ["4052",  "VNTR-4052",   "QUB26"],
    ["4156",  "VNTR-4156",   "QUB4156"],
    ["4348",  "MIRU-39"] ]

/-- The canonical name of a catalog row: `x[0]` in the Python source. -/
def canonical (row : List String) : String := row.headD ""

/-- `normalize_name` from `defs.py`: strip surrounding whitespace, lowercase,
then delete every whitespace, hyphen or underscore character
(`NORM_RE.sub ('', s.strip().lower())`). -/
def normalize_name (s : String) : String :=
  String.mk (((stripChars s.data).map Char.toLower).filter
    (fun c => !(pySpace c || c = '-' || c = '_')))

/-- The registry-construction loop of `defs.py`: for every row and every
name in the row, assign `table[normalize_name(name)] = row[0]`.  There is
no collision check: a repeated normalized key is silently overwritten. -/
def buildIndex (catalog : List (List String)) : List (String × String) :=
  catalog.foldl
    (fun d row => row.foldl (fun d n => dictset d (normalize_name n) (canonical row)) d)
    []

/-- `LOCI_TO_INDEX` from `defs.py`. -/
def LOCI_TO_INDEX : List (String × String) := buildIndex LOCI

/-- `resolve`: translate any locus name to its canonical id via the registry
(the expression `LOCI_TO_INDEX[normalize_name(loci)]` in `typing.py`,
with `none` standing for the KeyError case). -/
def resolveName (nm : String) : Option String :=
  dictget LOCI_TO_INDEX (normalize_name nm)

/-- `ETR` scheme from `defs.py`. -/
def ETR : List String := ["ETR-A", "ETR-B", "ETR-C", "ETR-D", "ETR-E"]

/-- `MIRU` scheme from `defs.py`. -/
def MIRU : List String :=
  ["MIRU-2", "MIRU-4", "MIRU-10", "MIRU-16", "MIRU-20", "MIRU-23",
   "MIRU-24", "MIRU-26", "MIRU-27", "MIRU-31", "MIRU-39", "MIRU-40"]

/-- `VNTR` scheme from `defs.py`. -/
def VNTR : List String :=
  ETR ++ ["MIRU-2", "MIRU-10", "MIRU-16", "MIRU-20", "MIRU-23",
          "MIRU-24", "MIRU-26", "MIRU-27", "MIRU-39", "MIRU-40"]

/-- `AUX` scheme from `defs.py`. -/
def AUX : List String :=
  ["VNTR-424", "VNTR-1955", "VNTR-2163b", "VNTR-2347", "VNTR-2401",
   "VNTR-3171", "VNTR-3690", "VNTR-4052", "VNTR-4156"]

/-- `NMRL_15` from `defs.py`. -/
def NMRL_15 : List String := VNTR

/-- `NMRL_24` from `defs.py`. -/
def NMRL_24 : List String := NMRL_15 ++ AUX

/-- Phylotype label constant from `defs.py`. -/
def PHYLOTYPE_I_BEIJING : String := "I (Beijing)"

/-- Phylotype label constant from `defs.py`. -/
def PHYLOTYPE_II_EURO_AMERICAN : String := "II (Euro-american)"

/-- Phylotype label constant from `defs.py`. -/
def PHYLOTYPE_III_CAS : String := "III (CAS)"

/-- Phylotype label constant from `defs.py`. -/
def PHYLOTYPE_IV_EAI : String := "IV (EAI)"

/-- Phylotype label constant from `defs.py`. -/
def PHYLOTYPE_M_BOVIS : String := "M. bovis"

/-- Phylotype label constant from `defs.py`. -/
def PHYLOTYPE_M_AFRICANUM : String := "M. africanum"

/-- Phylotype label constant from `defs.py`. -/
def PHYLOTYPE_M_MICROTI : String := "M. microti"

/-! ## typing.py -/

/-- A value passed to `TbType.__setitem__`: Python duck-types between a
string (a single character in all uses in this module) and an integer. -/
inductive PyVal where
  | str (c : Char)
  | int (n : Int)
deriving DecidableEq, Repr

/-- The `TbType` object: `_data` is the internal dict keyed by canonical
locus names, `ambig_sym` the ambiguity symbol (default '-'). -/
structure TbType where
  _data : List (String × Option Int)
  ambig_sym : Char
deriving DecidableEq, Repr

/-- `TbType.__init__` with no data argument: every catalog locus maps to
`None`, the ambiguity symbol defaults to '-'. -/
def TbType.init : TbType :=
  { _data := LOCI.map (fun x => (canonical x, none)), ambig_sym := '-' }

/-- `TbType.__getitem__`: `self._data[LOCI_TO_INDEX[normalize_name(loci)]]`.
Either dict lookup can raise KeyError. -/
def TbType.getitem (t : TbType) (loci : String) : Except PyErr (Option Int) :=
  match resolveName loci with
  | none => .error .keyError
  | some k =>
    match dictget t._data k with
    | none => .error .keyError
    | some v => .ok v

/-- `TbType.alpha_to_int`: the ambiguity symbol maps to `None`; a decimal
digit to its value; any other character to `ord(c.upper()) - ord('A') + 10`
(no validity check, so e.g. '!' maps to -22). -/
def TbType.alpha_to_int (t : TbType) (c : Char) : Option Int :=
  if c = t.ambig_sym then none
  else if '0' ≤ c ∧ c ≤ '9' then some ((c.toNat : Int) - 48)
  else some ((c.toUpper.toNat : Int) - 65 + 10)

/-- `TbType.int_to_alpha`: `None` maps to the ambiguity symbol, values
below 10 to their decimal string (`"%s" % i`), others to
`chr(i - 10 + ord('A'))`. -/
def TbType.int_to_alpha (t : TbType) (i : Option Int) : String :=
  match i with
  | none => String.mk [t.ambig_sym]
  | some i =>
    if i < 10 then toString i
    else String.mk [Char.ofNat (Int.toNat (i - 10 + 65))]

/-- `TbType.__setitem__`: a string value is uppercased and decoded by
`alpha_to_int`; an integer value must satisfy `assert (0 < value)` (note:
this rejects 0); the result is stored under the canonical locus name. -/
def TbType.setitem (t : TbType) (loci : String) (value : PyVal) : Except PyErr TbType :=
  match (match value with
         | .str c => Except.ok (t.alpha_to_int c.toUpper)
         | .int n =>
           if 0 < n then Except.ok (some n) else Except.error PyErr.assertionError) with
  | .error e => .error e
  | .ok v =>
    match resolveName loci with
    | none => .error .keyError
    | some k => .ok { t with _data := dictset t._data k v }

/-- `TbType.contains_ambigs`: `None in self._data.values()`. -/
def TbType.contains_ambigs (t : TbType) : Bool :=
  (t._data.map Prod.snd).contains none

/-- The positional assignment loop of `from_string`:
`for i, k in enumerate (scheme): self[k] = s[i]`. -/
def TbType.setLoop (t : TbType) : List (String × Char) → Except PyErr TbType
  | [] => .ok t
  | p :: rest =>
    match t.setitem p.1 (PyVal.str p.2) with
    | .error e => .error e
    | .ok t2 => t2.setLoop rest

/-- `TbType.from_string`.  Scheme inference from length is as written in the
source: `if len(s) == 24:` assigns `NMRL_24` but is followed by a second
plain `if len(s) == 15: ... else: assert (false)` instead of an `elif`, so
every length other than 15 — including 24 — reaches the `else` branch, where
evaluating the undefined name `false` raises NameError.  After the explicit
length assertion, every locus is reset to `None` and the scheme loci are
assigned positionally. -/
def TbType.from_string (t : TbType) (s : List Char) (scheme : Option (List String)) :
    Except PyErr TbType :=
  match (match scheme with
         | some sch => Except.ok sch
         | none =>
           if s.length = 15 then Except.ok NMRL_15 else Except.error PyErr.nameError) with
  | .error e => .error e
  | .ok sch =>
    if s.length = sch.length then
      TbType.setLoop
        { t with _data := t._data.map (fun p => (p.1, (none : Option Int))) }
        (sch.zip s)
    else .error PyErr.assertionError

/-- The read loop of `to_array`: `[self[loci] for loci in scheme]`. -/
def TbType.getLoop (t : TbType) : List String → Except PyErr (List (Option Int))
  | [] => .ok []
  | nm :: rest =>
    match t.getitem nm with
    | .error e => .error e
    | .ok v =>
      match t.getLoop rest with
      | .error e => .error e
      | .ok vs => .ok (v :: vs)

/-- `TbType.to_array`: default scheme `NMRL_24`; reads every scheme locus in
order.  The (unchanged) object is returned alongside the result so that the
absence of mutation is visible in the embedding. -/
def TbType.to_array (t : TbType) (scheme : Option (List String)) :
    Except PyErr (List (Option Int) × TbType) :=
  match t.getLoop ((scheme.getD NMRL_24)) with
  | .error e => .error e
  | .ok vs => .ok (vs, t)

/-- `TbType.to_string`: `''.join ([self.int_to_alpha(x) for x in
self.to_array (scheme)])`. -/
def TbType.to_string (t : TbType) (scheme : Option (List String)) :
    Except PyErr (String × TbType) :=
  match t.to_array scheme with
  | .error e => .error e
  | .ok (vs, t2) => .ok (strJoin (vs.map (fun x => t2.int_to_alpha x)), t2)

/-- Decoding a string into a fresh profile: `TbType (data, scheme)`, i.e.
construction followed by `from_string`. -/
def decode (s : List Char) (scheme : Option (List String)) : Except PyErr TbType :=
  TbType.init.from_string s scheme

/-- One per-locus test of the `phylo_type` rule list.  `isId` models the
Python `is` comparison against a small integer literal (identity of interned
small ints, i.e. equality, and `None is n` is false); `inList` models
membership `in [..]`; `geNum` models `>=` with the Python 2 convention that
`None` compares below every integer. -/
inductive LocTest where
  | isId (loci : String) (n : Int)
  | inList (loci : String) (l : List Int)
  | geNum (loci : String) (n : Int)

/-- Evaluate one test against the profile. -/
def TbType.test (t : TbType) : LocTest → Except PyErr Bool
  | .isId nm n =>
    match t.getitem nm with
    | .error e => .error e
    | .ok v => .ok (v = some n)
  | .inList nm l =>
    match t.getitem nm with
    | .error e => .error e
    | .ok v => .ok (match v with | none => false | some m => l.contains m)
  | .geNum nm n =>
    match t.getitem nm with
    | .error e => .error e
    | .ok v => .ok (match v with | none => false | some m => n ≤ m)

/-- A conjunction of tests, short-circuiting like the Python `and`. -/
def TbType.conj (t : TbType) : List LocTest → Except PyErr Bool
  | [] => .ok true
  | tc :: rest =>
    match t.test tc with
    | .error e => .error e
    | .ok false => .ok false
    | .ok true => t.conj rest

/-- `TbType.phylo_type`, the lineage classifier, with its rule list exactly
as in the source (including the contradictory first group, which tests
`miru-39 is 3` and `miru-39 is 1` together).  The source references the
undefined names `PHYLOTYPE_II_CAS` and `PHYLOTYPE_II_EAI` in the third and
fourth groups, which evaluate to NameError.  The method only reads the
profile; the unchanged object is paired with the result. -/
def TbType.phylo_type (t : TbType) : Except PyErr (Option String × TbType) :=
  match t.conj [.isId "miru-39" 3, .isId "etr-a" 4, .isId "etr-c" 4, .isId "miru-39" 1] with
  | .error e => .error e
  | .ok true => .ok (some PHYLOTYPE_I_BEIJING, t)
  | .ok false =>
  match t.conj [.inList "miru-16" [1, 2, 3], .isId "miru-39" 2, .inList "etr-b" [1, 2]] with
  | .error e => .error e
  | .ok true => .ok (some PHYLOTYPE_II_EURO_AMERICAN, t)
  | .ok false =>
  match t.conj [.isId "miru-23" 5, .isId "etr-c" 2] with
  | .error e => .error e
  | .ok true => .error .nameError
  | .ok false =>
  match t.conj [.isId "miru-24" 2, .isId "miru-26" 2] with
  | .error e => .error e
  | .ok true => .error .nameError
  | .ok false =>
  match t.conj [.isId "miru-10" 2, .isId "miru-40" 2, .isId "etr-c" 5] with
  | .error e => .error e
  | .ok true => .ok (some PHYLOTYPE_M_BOVIS, t)
  | .ok false =>
  match t.conj [.geNum "miru-10" 4, .isId "miru-23" 4, .inList "miru-26" [3, 4, 5],
                .geNum "etr-a" 4] with
  | .error e => .error e
  | .ok true => .ok (some PHYLOTYPE_M_AFRICANUM, t)
  | .ok false =>
  match t.conj [.isId "miru-23" 4, .isId "miru-40" 2, .geNum "etr-A" 8] with
  | .error e => .error e
  | .ok true => .ok (some PHYLOTYPE_M_MICROTI, t)
  | .ok false => .ok (none, t)

/-! ## Derived notions used by the claims -/

/-- The key list of the internal store (the Python dict key set, in
insertion order). -/
def keysOf (t : TbType) : List String := t._data.map Prod.fst

/-- The canonical ids of the whole catalog, in catalog order. -/
def canonIds : List String := LOCI.map canonical

/-- The valid interchange characters: the default ambiguity symbol, the
decimal digits and the uppercase letters. -/
def validChars : List Char := "-0123456789ABCDEFGHIJKLMNOPQRSTUVWXYZ".data

/-! ## Dictionary lemmas -/

theorem dictget_dictset_self {α : Type} (d : List (String × α)) (k : String) (v : α) :
    dictget (dictset d k v) k = some v := by
  induction d with
  | nil => simp [dictget, dictset]
  | cons p d ih =>
    by_cases h : p.1 = k
    · simp [dictget, dictset, h]
    · simp [dictget, dictset, h, ih]

theorem dictget_dictset_ne {α : Type} (d : List (String × α)) (k k' : String) (v : α)
    (h : k' ≠ k) : dictget (dictset d k' v) k = dictget d k := by
  induction d with
  | nil => simp [dictget, dictset, h]
  | cons p d ih =>
    by_cases hp : p.1 = k'
    · simp [dictget, dictset, hp, h]
    · simp only [dictset, if_neg hp, dictget]
      by_cases hk : p.1 = k
      · simp [dictget, hk]
      · simp [dictget, hk, ih]

theorem keys_dictset_of_mem {α : Type} (d : List (String × α)) (k : String) (v : α)
    (h : k ∈ d.map Prod.fst) : (dictset d k v).map Prod.fst = d.map Prod.fst := by
  induction d with
  | nil => simp at h
  | cons p d ih =>
    by_cases hp : p.1 = k
    · simp [dictset, hp]
    · simp only [List.map_cons, List.mem_cons] at h
      rcases h with h | h

      · exact absurd h.symm hp
      · simp [dictset, hp, ih h]

theorem dictget_mem {α : Type} (d : List (String × α)) (k : String) (v : α)
    (h : dictget d k = some v) : (k, v) ∈ d := by
  induction d with
  | nil => simp [dictget] at h
  | cons p d ih =>
    by_cases hp : p.1 = k
    · simp only [dictget, if_pos hp] at h
      obtain ⟨p1, p2⟩ := p
      simp only at hp
      subst hp
      obtain rfl := Option.some_injective _ h
      exact List.mem_cons_self _ _
    · simp only [dictget, if_neg hp] at h
      exact List.mem_cons_of_mem _ (ih h)

theorem dictget_map_clear (d : List (String × Option Int)) (k : String) :
    dictget (d.map (fun p => (p.1, (none : Option Int)))) k
      = (dictget d k).map (fun _ => none) := by
  induction d with
  | nil => simp [dictget]
  | cons p d ih =>
    by_cases hp : p.1 = k
    · simp [dictget, hp]
    · simp [dictget, hp, ih]

/-! ## Registry facts (checked on the concrete catalog) -/

theorem loci_resolve : ∀ row ∈ LOCI, ∀ nm ∈ row, resolveName nm = some (canonical row) := by
  decide

theorem index_values_canonical : ∀ p ∈ LOCI_TO_INDEX, p.2 ∈ canonIds := by decide

/-- C1: with no explicit scheme, `from_string` infers a scheme only for
15-character strings; every other length — including the 24-character case,
for which the source first assigns the 24-locus scheme and then falls into
the broken `else` branch — raises NameError instead of using the 24-locus
scheme.  This records the divergence from the claim at the failing input
(a 24-character string). -/
theorem scheme_inference_bug :
    decode (List.replicate 24 '2') none = Except.error PyErr.nameError
    ∧ decode (List.replicate 10 '2') none = Except.error PyErr.nameError
    ∧ decode "3481096A2C22806".data none = decode "3481096A2C22806".data (some NMRL_15)
    ∧ decode "3481096A2C22806".data none ≠ Except.error PyErr.nameError := by
  refine ⟨by decide, by decide, by decide, by decide⟩

/-- C3: the integer path of `__setitem__` asserts `0 < value`, so the
claimed-valid input 0 is rejected exactly like -1, even though the string
path of the very same setter stores 0 (from the character '0'); and a
character outside the accepted alphabet such as '!' is not rejected but
stored as the out-of-range value -22.  'Z' stores 35 as claimed. -/
theorem setitem_value_check_bug :
    TbType.init.setitem "MIRU-02" (PyVal.int 0) = Except.error PyErr.assertionError
    ∧ TbType.init.setitem "MIRU-02" (PyVal.int (-1)) = Except.error PyErr.assertionError
    ∧ (TbType.init.setitem "MIRU-02" (PyVal.str '0')).bind (fun t => t.getitem "154")
        = Except.ok (some 0)
    ∧ (TbType.init.setitem "MIRU-02" (PyVal.str 'Z')).bind (fun t => t.getitem "154")
        = Except.ok (some 35)
    ∧ (TbType.init.setitem "MIRU-02" (PyVal.str '!')).bind (fun t => t.getitem "154")
        = Except.ok (some (-22)) := by
  refine ⟨by decide, by decide, by decide, by decide, by decide⟩

/-- C4: `int_to_alpha` and `alpha_to_int` are mutual inverses on the full
valid domain: every valid character (ambiguity symbol, digit, uppercase
letter) round-trips through `alpha_to_int` then `int_to_alpha`, every count
0..35 round-trips through `int_to_alpha` (always a single character) then
`alpha_to_int`, and the absent value round-trips through the ambiguity
symbol. -/
theorem alpha_int_inverses :
    (∀ c ∈ validChars,
      TbType.init.int_to_alpha (TbType.init.alpha_to_int c) = String.mk [c])
    ∧ (∀ v : Fin 36,
        (TbType.init.int_to_alpha (some ((v.val : Int)))).data.length = 1
        ∧ TbType.init.alpha_to_int
            ((TbType.init.int_to_alpha (some ((v.val : Int)))).data.headD ' ')
          = some ((v.val : Int)))
    ∧ TbType.init.int_to_alpha none = String.mk ['-']
    ∧ TbType.init.alpha_to_int '-' = none := by
  refine ⟨by decide, by decide, by decide, by decide⟩

/-- C4 witness: the inverse laws evaluated at the character 'Z' and the
count 35. -/
theorem alpha_int_inverses_witness :
    TbType.init.int_to_alpha (TbType.init.alpha_to_int 'Z') = String.mk ['Z']
    ∧ TbType.init.alpha_to_int
        ((TbType.init.int_to_alpha (some (((35 : Fin 36).val : Int)))).data.headD ' ')
      = some (((35 : Fin 36).val : Int)) :=
  ⟨alpha_int_inverses.1 'Z' (by decide), (alpha_int_inverses.2.1 35).2⟩

/-! ## Write/read machinery for the positional loops -/

/-- Sequential dict assignment of a list of key/value pairs. -/
def writeAll (d : List (String × Option Int)) :
    List (String × Option Int) → List (String × Option Int)
  | [] => d
  | kv :: kvs => writeAll (dictset d kv.1 kv.2) kvs

theorem writeAll_preserve (kvs : List (String × Option Int))
    (d : List (String × Option Int)) (k : String) (h : k ∉ kvs.map Prod.fst) :
    dictget (writeAll d kvs) k = dictget d k := by
  induction kvs generalizing d with
  | nil => rfl
  | cons kv kvs ih =>
    simp only [List.map_cons, List.mem_cons, not_or] at h
    rw [writeAll, ih _ h.2, dictget_dictset_ne _ _ _ _ (fun he => h.1 he.symm)]

theorem read_after_write (ks : List String) (vs : List (Option Int))
    (d : List (String × Option Int)) (hnd : ks.Nodup) (hlen : ks.length = vs.length) :
    ks.map (fun k => dictget (writeAll d (ks.zip vs)) k) = vs.map some := by
  induction ks generalizing vs d with
  | nil =>
    obtain rfl : vs = [] := by
      cases vs
      · rfl
      · simp at hlen
    rfl
  | cons k ks ih =>
    obtain ⟨v, vs, rfl⟩ : ∃ v vs2, vs = v :: vs2 := by
      cases vs
      · simp at hlen
      · exact ⟨_, _, rfl⟩
    simp only [List.nodup_cons] at hnd
    simp only [List.length_cons, Nat.succ_inj] at hlen
    have h1 : dictget (writeAll (dictset d k v) (ks.zip vs)) k = some v := by
      rw [writeAll_preserve _ _ _ (by rw [List.map_fst_zip _ _ (by omega)]; exact hnd.1),
        dictget_dictset_self]
    have h2 : ks.map (fun k2 => dictget (writeAll (dictset d k v) (ks.zip vs)) k2)
        = vs.map some := ih vs _ hnd.2 hlen
    have hstep : List.map (fun k2 => dictget (writeAll d ((k :: ks).zip (v :: vs))) k2) (k :: ks)
        = dictget (writeAll (dictset d k v) (ks.zip vs)) k
          :: ks.map (fun k2 => dictget (writeAll (dictset d k v) (ks.zip vs)) k2) := rfl
    rw [hstep, h1, h2, List.map_cons]

theorem setLoop_ok (sch : List String) (ks : List String) (s : List Char)
    (d : List (String × Option Int)) (a : Char)
    (hres : sch.map resolveName = ks.map some) (hlen : s.length = sch.length) :
    TbType.setLoop ⟨d, a⟩ (sch.zip s) =
      Except.ok ⟨writeAll d
        (ks.zip (s.map (fun c => TbType.alpha_to_int ⟨[], a⟩ c.toUpper))), a⟩ := by
  induction sch generalizing ks s d with
  | nil =>
    obtain rfl : ks = [] := by
      cases ks
      · rfl
      · simp at hres
    obtain rfl : s = [] := by
      cases s
      · rfl
      · simp at hlen
    rfl
  | cons nm sch ih =>
    obtain ⟨k, ks, rfl⟩ : ∃ k ks2, ks = k :: ks2 := by
      cases ks
      · simp at hres
      · exact ⟨_, _, rfl⟩
    obtain ⟨c, s, rfl⟩ : ∃ c s2, s = c :: s2 := by
      cases s
      · simp at hlen
      · exact ⟨_, _, rfl⟩
    simp only [List.map_cons, List.cons.injEq] at hres
    simp only [List.length_cons, Nat.succ_inj] at hlen
    simp only [List.zip_cons_cons, List.map_cons, writeAll, TbType.setLoop, TbType.setitem,
      hres.1]
    exact ih ks s _ hres.2 hlen

theorem getLoop_ok (sch : List String) (ks : List String) (vs : List (Option Int))
    (t : TbType) (hres : sch.map resolveName = ks.map some)
    (hread : ks.map (fun k => dictget t._data k) = vs.map some) :
    t.getLoop sch = Except.ok vs := by
  induction sch generalizing ks vs with
  | nil =>
    obtain rfl : ks = [] := by
      cases ks
      · rfl
      · simp at hres
    obtain rfl : vs = [] := by
      cases vs
      · rfl
      · simp at hread
    rfl
  | cons nm sch ih =>
    obtain ⟨k, ks, rfl⟩ : ∃ k ks2, ks = k :: ks2 := by
      cases ks
      · simp at hres
      · exact ⟨_, _, rfl⟩
    obtain ⟨v, vs, rfl⟩ : ∃ v vs2, vs = v :: vs2 := by
      cases vs
      · simp at hread
      · exact ⟨_, _, rfl⟩
    simp only [List.map_cons, List.cons.injEq] at hres hread
    simp only [TbType.getLoop, TbType.getitem, hres.1, hread.1, ih ks vs hres.2 hread.2]

theorem strJoin_singletons (l : List Char) :
    strJoin (l.map (fun c => String.mk [c])) = String.mk l := by
  have h : ∀ l2 : List Char, ((l2.map (fun c => String.mk [c])).map String.data).flatten = l2 := by
    intro l2
    induction l2 with
    | nil => rfl
    | cons c l2 ih =>
      show c :: ((l2.map (fun c => String.mk [c])).map String.data).flatten = c :: l2
      rw [ih]
  rw [strJoin, h]

theorem chr_roundtrip : ∀ c ∈ validChars,
    TbType.int_to_alpha ⟨[], '-'⟩ (TbType.alpha_to_int ⟨[], '-'⟩ c.toUpper)
      = String.mk [c] := by
  decide

theorem roundtrip_aux (scheme ks : List String) (s : List Char)
    (hres : scheme.map resolveName = ks.map some) (hnd : ks.Nodup)
    (hlen : s.length = scheme.length) (hvalid : ∀ c ∈ s, c ∈ validChars) :
    (decode s (some scheme)).bind (fun t => (t.to_string (some scheme)).map Prod.fst)
      = Except.ok (String.mk s) := by
  have hklen : ks.length = scheme.length := by
    have := congrArg List.length hres
    simpa using this.symm
  have hdec : decode s (some scheme) =
      Except.ok ⟨writeAll TbType.init._data
        (ks.zip (s.map (fun c => TbType.alpha_to_int ⟨[], '-'⟩ c.toUpper))), '-'⟩ := by
    have hup : ({ TbType.init with
        _data := TbType.init._data.map (fun p => (p.1, (none : Option Int))) } : TbType)
        = (⟨TbType.init._data, '-'⟩ : TbType) := by decide
    show (if s.length = scheme.length then
        TbType.setLoop
          { TbType.init with
            _data := TbType.init._data.map (fun p => (p.1, (none : Option Int))) }
          (scheme.zip s)
      else Except.error PyErr.assertionError) = _
    rw [if_pos hlen, hup]
    exact setLoop_ok scheme ks s _ '-' hres hlen
  set vs : List (Option Int) :=
    s.map (fun c => TbType.alpha_to_int ⟨[], '-'⟩ c.toUpper) with hvs
  set t' : TbType := ⟨writeAll TbType.init._data (ks.zip vs), '-'⟩ with ht'
  have hread : ks.map (fun k => dictget t'._data k) = vs.map some :=
    read_after_write ks vs _ hnd (by simp [hvs, hklen, hlen])
  have hget : t'.getLoop scheme = Except.ok vs := getLoop_ok scheme ks vs t' hres hread
  have hstr : vs.map (fun x => t'.int_to_alpha x) = s.map (fun c => String.mk [c]) := by
    rw [hvs, List.map_map]
    refine List.map_congr_left (fun c hc => ?_)
    exact chr_roundtrip c (hvalid c hc)
  rw [hdec]
  simp only [Except.bind, TbType.to_string, TbType.to_array, Option.getD, hget, hstr,
    strJoin_singletons, Except.map]

/-- C2: decoding any string of valid characters with the matching scheme
(length 15 with the 15-locus scheme, length 24 with the 24-locus scheme)
and re-encoding with the same scheme returns the string unchanged. -/
theorem decode_encode_roundtrip (s : List Char) (scheme : List String)
    (hmatch : (s.length = 15 ∧ scheme = NMRL_15) ∨ (s.length = 24 ∧ scheme = NMRL_24))
    (hvalid : ∀ c ∈ s, c ∈ validChars) :
    (decode s (some scheme)).bind (fun t => (t.to_string (some scheme)).map Prod.fst)
      = Except.ok (String.mk s) := by
  rcases hmatch with ⟨hlen, rfl⟩ | ⟨hlen, rfl⟩
  · exact roundtrip_aux NMRL_15
      ["2165", "2461", "577", "580", "3192", "154", "960", "1644", "2059", "2531",
       "2687", "2996", "3007", "4348", "802"]
      s (by decide) (by decide) (by rw [hlen]; decide) hvalid
  · exact roundtrip_aux NMRL_24
      ["2165", "2461", "577", "580", "3192", "154", "960", "1644", "2059", "2531",
       "2687", "2996", "3007", "4348", "802", "424", "1955", "2163b", "2347", "2401",
       "3171", "3690", "4052", "4156"]
      s (by decide) (by decide) (by rw [hlen]; decide) hvalid

/-- C2 witness: the round trip evaluated on a concrete 15-character string
and a concrete 24-character string. -/
theorem decode_encode_roundtrip_witness :
    (decode "3481096A2C22806".data (some NMRL_15)).bind
        (fun t => (t.to_string (some NMRL_15)).map Prod.fst)
      = Except.ok (String.mk "3481096A2C22806".data)
    ∧ (decode "3481096A2C22806B2C2Z-803".data (some NMRL_24)).bind
        (fun t => (t.to_string (some NMRL_24)).map Prod.fst)
      = Except.ok (String.mk "3481096A2C22806B2C2Z-803".data) :=
  ⟨decode_encode_roundtrip "3481096A2C22806".data NMRL_15 (Or.inl ⟨by decide, rfl⟩)
     (by decide),
   decode_encode_roundtrip "3481096A2C22806B2C2Z-803".data NMRL_24 (Or.inr ⟨by decide, rfl⟩)
     (by decide)⟩

/-! ## Setter characterization and preservation lemmas -/

theorem setitem_ok_spec (t t' : TbType) (loci : String) (v : PyVal)
    (h : t.setitem loci v = Except.ok t') :
    ∃ k val, resolveName loci = some k ∧ t'._data = dictset t._data k val
      ∧ t'.ambig_sym = t.ambig_sym := by
  cases v with
  | str c =>
    simp only [TbType.setitem] at h
    rcases hr : resolveName loci with _ | k
    · rw [hr] at h
      exact Except.noConfusion h
    · rw [hr] at h
      injection h with h
      subst h
      exact ⟨k, _, rfl, rfl, rfl⟩
  | int n =>
    simp only [TbType.setitem] at h
    by_cases h0 : 0 < n
    · rw [if_pos h0] at h
      rcases hr : resolveName loci with _ | k
      · rw [hr] at h
        exact Except.noConfusion h
      · rw [hr] at h
        injection h with h
        subst h
        exact ⟨k, some n, rfl, rfl, rfl⟩
    · rw [if_neg h0] at h
      exact Except.noConfusion h

theorem setitem_int_ok (t t' : TbType) (loci : String) (n : Int)
    (h : t.setitem loci (PyVal.int n) = Except.ok t') :
    ∃ k, resolveName loci = some k ∧ t'._data = dictset t._data k (some n)
      ∧ t'.ambig_sym = t.ambig_sym := by
  simp only [TbType.setitem] at h
  by_cases h0 : 0 < n
  · rw [if_pos h0] at h
    rcases hr : resolveName loci with _ | k
    · rw [hr] at h
      exact Except.noConfusion h
    · rw [hr] at h
      injection h with h
      subst h
      exact ⟨k, rfl, rfl, rfl⟩
  · rw [if_neg h0] at h
    exact Except.noConfusion h

theorem setLoop_preserve (l : List (String × Char)) (t t' : TbType) (k : String)
    (hres : ∀ p ∈ l, resolveName p.1 ≠ some k) (h : t.setLoop l = Except.ok t') :
    dictget t'._data k = dictget t._data k := by
  induction l generalizing t with
  | nil =>
    simp only [TbType.setLoop] at h
    injection h with h
    subst h
    rfl
  | cons p l ih =>
    simp only [TbType.setLoop] at h
    rcases hset : t.setitem p.1 (PyVal.str p.2) with e | t2
    · rw [hset] at h
      exact Except.noConfusion h
    · rw [hset] at h
      obtain ⟨k2, val, hr, hdata, _⟩ := setitem_ok_spec t t2 p.1 _ hset
      have hne : k2 ≠ k := by
        intro he
        exact hres p (List.mem_cons_self _ _) (he ▸ hr)
      rw [ih t2 (fun q hq => hres q (List.mem_cons_of_mem _ hq)) h, hdata,
        dictget_dictset_ne _ _ _ _ hne]

theorem setitem_keys (t t' : TbType) (loci : String) (v : PyVal)
    (hk : keysOf t = canonIds) (h : t.setitem loci v = Except.ok t') :
    keysOf t' = canonIds := by
  obtain ⟨k, val, hr, hdata, _⟩ := setitem_ok_spec t t' loci v h
  have hmem : k ∈ canonIds :=
    index_values_canonical (normalize_name loci, k) (dictget_mem _ _ _ hr)
  have hmem2 : k ∈ t._data.map Prod.fst := by
    rw [show t._data.map Prod.fst = keysOf t from rfl, hk]
    exact hmem
  rw [keysOf, hdata, keys_dictset_of_mem _ _ _ hmem2]
  exact hk

theorem setLoop_keys (l : List (String × Char)) (t t' : TbType)
    (hk : keysOf t = canonIds) (h : t.setLoop l = Except.ok t') :
    keysOf t' = canonIds := by
  induction l generalizing t with
  | nil =>
    simp only [TbType.setLoop] at h
    injection h with h
    subst h
    exact hk
  | cons p l ih =>
    simp only [TbType.setLoop] at h
    rcases hset : t.setitem p.1 (PyVal.str p.2) with e | t2
    · rw [hset] at h
      exact Except.noConfusion h
    · rw [hset] at h
      exact ih t2 (setitem_keys t t2 p.1 _ hk hset) h

theorem clear_keys (t : TbType) :
    keysOf ({ t with _data := t._data.map (fun p => (p.1, (none : Option Int))) }) = keysOf t := by
  have hcomp : (Prod.fst ∘ fun p : String × Option Int => (p.1, (none : Option Int)))
      = Prod.fst := funext fun p => rfl
  simp only [keysOf, List.map_map, hcomp]

theorem from_string_keys (t t' : TbType) (s : List Char) (scheme : Option (List String))
    (hk : keysOf t = canonIds) (h : t.from_string s scheme = Except.ok t') :
    keysOf t' = canonIds := by
  unfold TbType.from_string at h
  split at h
  · exact Except.noConfusion h
  · split at h
    · exact setLoop_keys _ _ _ (by rw [clear_keys]; exact hk) h
    · exact Except.noConfusion h

/-- C6: decoding resets the profile before positional assignment: for every
successful explicit-scheme decode, every stored key that no scheme entry
resolves to holds the ambiguous value afterwards (its previous value is
wiped).  Concretely, decoding "3481096A2C22806" with the 15-locus scheme
and re-encoding with the same scheme returns the same string, while
re-encoding with the default 24-locus scheme appends nine ambiguity
symbols. -/
theorem decode_resets_unnamed_loci :
    (∀ (t t' : TbType) (s : List Char) (scheme : List String) (k : String),
      t.from_string s (some scheme) = Except.ok t' →
      (∀ nm ∈ scheme, resolveName nm ≠ some k) →
      dictget t'._data k = (dictget t._data k).map (fun _ => none))
    ∧ (decode "3481096A2C22806".data (some NMRL_15)).bind
        (fun t => (t.to_string none).map Prod.fst)
      = Except.ok "3481096A2C22806---------"
    ∧ (decode "3481096A2C22806".data (some NMRL_15)).bind
        (fun t => (t.to_string (some NMRL_15)).map Prod.fst)
      = Except.ok "3481096A2C22806" := by
  refine ⟨?_, by decide, by decide⟩
  intro t t' s scheme k h hout
  have h2 : (if s.length = scheme.length then
      TbType.setLoop { t with _data := t._data.map (fun p => (p.1, (none : Option Int))) }
        (scheme.zip s)
    else Except.error PyErr.assertionError) = Except.ok t' := h
  by_cases hl : s.length = scheme.length
  · rw [if_pos hl] at h2
    have hres : ∀ p ∈ scheme.zip s, resolveName p.1 ≠ some k := by
      intro p hp
      exact hout p.1 (List.of_mem_zip hp).1
    rw [setLoop_preserve _ _ _ _ hres h2]
    exact dictget_map_clear t._data k
  · rw [if_neg hl] at h2
    exact Except.noConfusion h2

/-- The concrete profile obtained by decoding "3481096A2C22806" with the
15-locus scheme; used to instantiate witnesses. -/
def decodedSample : TbType :=
  TbType.mk
    [("154", some 9), ("424", none), ("577", some 8), ("580", some 1), ("802", some 6),
     ("960", some 6), ("1644", some 10), ("1955", none), ("2059", some 2), ("2163b", none),
     ("2165", some 3), ("2347", none), ("2401", none), ("2461", some 4), ("2531", some 12),
     ("2687", some 2), ("2996", some 2), ("3007", some 8), ("3171", none), ("3192", some 0),
     ("3690", none), ("4052", none), ("4156", none), ("4348", some 0)] '-'

/-- C6 witness: the reset law evaluated on the concrete decode, at the
locus 424 (absent from the 15-locus scheme). -/
theorem decode_resets_unnamed_loci_witness :
    dictget decodedSample._data "424"
      = (dictget TbType.init._data "424").map (fun _ => none) :=
  decode_resets_unnamed_loci.1 TbType.init decodedSample "3481096A2C22806".data NMRL_15
    "424" (by decide) (by decide)

/-- C7: for every catalog row and every two synonyms in it, reads through
either name look up the same stored slot, and after a successful integer
set through one synonym a read through the other returns the stored
value. -/
theorem synonyms_same_slot :
    ∀ row ∈ LOCI, ∀ n1 ∈ row, ∀ n2 ∈ row,
      (∀ t : TbType, t.getitem n1 = t.getitem n2)
      ∧ (∀ (t t' : TbType) (n : Int), t.setitem n1 (PyVal.int n) = Except.ok t' →
          t'.getitem n2 = Except.ok (some n)) := by
  intro row hrow n1 h1 n2 h2
  have r1 := loci_resolve row hrow n1 h1
  have r2 := loci_resolve row hrow n2 h2
  constructor
  · intro t
    simp only [TbType.getitem, r1, r2]
  · intro t t' n h
    obtain ⟨k, hk, hdata, _⟩ := setitem_int_ok t t' n1 n h
    rw [r1] at hk
    obtain rfl := Option.some_injective _ hk
    simp only [TbType.getitem, r2, hdata, dictget_dictset_self]

/-- C7 witness: the synonym laws evaluated on the row of locus 580, through
the synonyms ETR-D, 580 and MIRU-04, with the value 5. -/
theorem synonyms_same_slot_witness :
    TbType.init.getitem "ETR-D" = TbType.init.getitem "580"
    ∧ (TbType.mk (dictset TbType.init._data "580" (some 5)) '-').getitem "MIRU-04"
        = Except.ok (some 5) :=
  ⟨(synonyms_same_slot ["580", "MIRU-04", "MIRU-4", "ETR-D"] (by decide) "ETR-D" (by decide)
      "580" (by decide)).1 TbType.init,
   (synonyms_same_slot ["580", "MIRU-04", "MIRU-4", "ETR-D"] (by decide) "ETR-D" (by decide)
      "MIRU-04" (by decide)).2 TbType.init _ 5 (by decide)⟩

/-- C8: the key set of the internal store is the full catalog of canonical
ids at construction and is preserved by every successful operation: setter,
decode, array export and string export. -/
theorem key_set_invariant :
    keysOf TbType.init = canonIds
    ∧ (∀ (t t' : TbType) (loci : String) (v : PyVal), keysOf t = canonIds →
        t.setitem loci v = Except.ok t' → keysOf t' = canonIds)
    ∧ (∀ (t t' : TbType) (s : List Char) (scheme : Option (List String)),
        keysOf t = canonIds → t.from_string s scheme = Except.ok t' → keysOf t' = canonIds)
    ∧ (∀ (t : TbType) (scheme : Option (List String)) (r : List (Option Int) × TbType),
        keysOf t = canonIds → t.to_array scheme = Except.ok r → keysOf r.2 = canonIds)
    ∧ (∀ (t : TbType) (scheme : Option (List String)) (r : String × TbType),
        keysOf t = canonIds → t.to_string scheme = Except.ok r → keysOf r.2 = canonIds) := by
  refine ⟨by decide, setitem_keys, from_string_keys, ?_, ?_⟩
  · intro t scheme r hk h
    unfold TbType.to_array at h
    split at h
    · exact Except.noConfusion h
    · injection h with h
      subst h
      exact hk
  · intro t scheme r hk h
    unfold TbType.to_string at h
    rcases hta : t.to_array scheme with e | ⟨vs, t2⟩
    · rw [hta] at h
      exact Except.noConfusion h
    · rw [hta] at h
      injection h with h
      subst h
      show keysOf t2 = canonIds
      unfold TbType.to_array at hta
      rcases hg : t.getLoop (scheme.getD NMRL_24) with e2 | vs2
      · rw [hg] at hta
        exact Except.noConfusion hta
      · rw [hg] at hta
        injection hta with hta
        injection hta with h1 h2
        subst h2
        exact hk

/-- C5 counterexample: registry construction does not fail on a colliding
catalog.  For a catalog of two distinct loci sharing the synonym "908",
`buildIndex` returns a complete table in which the shared normalized key
silently maps to the second locus, overwriting the first. -/
theorem registry_collision_counterexample :
    buildIndex [["1", "908"], ["2", "908"]]
      = [("1", "1"), ("908", "2"), ("2", "2")]
    ∧ dictget (buildIndex [["1", "908"], ["2", "908"]]) "908" = some "2"
    ∧ dictget (buildIndex [["1", "908"], ["2", "908"]]) "908" ≠ some "1" := by
  refine ⟨by decide, by decide, by decide⟩

/-- C5 amended: registry construction never fails; a later assignment to an
already-present normalized key silently overwrites the earlier entry.  For
the actual `LOCI` catalog no two synonyms of distinct loci normalize to the
same key, so no overwrite between loci occurs. -/
theorem registry_overwrite_and_actual_no_collision :
    (∀ (d : List (String × String)) (k v : String), dictget (dictset d k v) k = some v)
    ∧ (∀ r1 ∈ LOCI, ∀ r2 ∈ LOCI, r1 ≠ r2 →
        ∀ n1 ∈ r1, ∀ n2 ∈ r2, normalize_name n1 ≠ normalize_name n2) :=
  ⟨fun d k v => dictget_dictset_self d k v, by decide⟩

/-- C5 witness: the overwrite law at a concrete table and the no-collision
law at two concrete catalog rows. -/
theorem registry_overwrite_witness :
    dictget (dictset [("908", "1")] "908" "2") "908" = some "2"
    ∧ normalize_name "MIRU-02" ≠ normalize_name "VNTR-424" :=
  ⟨registry_overwrite_and_actual_no_collision.1 [("908", "1")] "908" "2",
   registry_overwrite_and_actual_no_collision.2 ["154", "MIRU-02", "MIRU-2"] (by decide)
     ["424", "VNTR-424", "Mtub04", "Mtub4"] (by decide) (by decide)
     "MIRU-02" (by decide) "VNTR-424" (by decide)⟩

/-- C8 witness: the key-set invariant evaluated at construction and after a
concrete integer set through the synonym ETR-D. -/
theorem key_set_invariant_witness :
    keysOf TbType.init = canonIds
    ∧ keysOf (TbType.mk (dictset TbType.init._data "580" (some 5)) '-') = canonIds :=
  ⟨key_set_invariant.1,
   key_set_invariant.2.1 TbType.init (TbType.mk (dictset TbType.init._data "580" (some 5)) '-')
     "ETR-D" (PyVal.int 5) (by decide) (by decide)⟩

/-- C9: the classifier is pure and deterministic: every successful call
returns the unmodified profile alongside the label, so a repeated call on
the profile returns the identical result. -/
theorem phylo_type_pure :
    ∀ (t : TbType) (r : Option String × TbType), t.phylo_type = Except.ok r →
      r.2 = t ∧ t.phylo_type = Except.ok (r.1, t) := by
  intro t r h
  have h0 := h
  unfold TbType.phylo_type at h
  repeat' split at h
  all_goals first
    | exact Except.noConfusion h
    | (injection h with h; subst h; exact ⟨rfl, h0⟩)

/-- C9 witness: the purity law evaluated on the freshly constructed
(all-ambiguous) profile, which matches no predicate group. -/
theorem phylo_type_pure_witness :
    ((none : Option String), TbType.init).2 = TbType.init
    ∧ TbType.init.phylo_type = Except.ok (((none : Option String), TbType.init).1, TbType.init) :=
  phylo_type_pure TbType.init ((none : Option String), TbType.init) (by decide)

/-- C10: the export operations `to_array` and `to_string` do not modify the
profile: on success they return the object unchanged. -/
theorem export_frame :
    ∀ (t : TbType) (scheme : Option (List String)),
      (∀ r : List (Option Int) × TbType, t.to_array scheme = Except.ok r → r.2 = t)
      ∧ (∀ r : String × TbType, t.to_string scheme = Except.ok r → r.2 = t) := by
  intro t scheme
  constructor
  · intro r h
    unfold TbType.to_array at h
    split at h
    · exact Except.noConfusion h
    · injection h with h
      subst h
      rfl
  · intro r h
    unfold TbType.to_string at h
    rcases hta : t.to_array scheme with e | ⟨vs, t2⟩
    · rw [hta] at h
      exact Except.noConfusion h
    · rw [hta] at h
      injection h with h
      subst h
      show t2 = t
      unfold TbType.to_array at hta
      split at hta
      · exact Except.noConfusion hta
      · injection hta with hta
        injection hta with h1 h2
        exact h2.symm

/-- C10 witness: the frame law evaluated on the fresh profile with the
default scheme. -/
theorem export_frame_witness :
    ((List.replicate 24 (none : Option Int), TbType.init)).2 = TbType.init
    ∧ (("------------------------", TbType.init) : String × TbType).2 = TbType.init :=
  ⟨(export_frame TbType.init none).1 (List.replicate 24 (none : Option Int), TbType.init)
     (by decide),
   (export_frame TbType.init none).2 ("------------------------", TbType.init) (by decide)⟩
